import Mathlib

/-!
Verification of the rig context-compression subsystem
(`rig-core/src/compression/`): token estimator, truncation compressor,
sliding-window compressor and summarizing compressor, shallowly embedded
from the Rust source.
-/

/-- Modelled from the spec: content part of a tool result, from the rig
completion message types (`crate::completion::message::ToolResultContent`,
declared outside `src/`): a closed set of `Text` and `Image` variants, as
used by the estimator and the summarizer formatting. -/
inductive ToolResultContent where
  | text (text : String)
  | image
deriving DecidableEq

/-- Modelled from the spec: user content part
(`crate::completion::message::UserContent`, declared outside `src/`).
`toolResult` carries an id and nested tool-result content parts; `document`
carries an opaque textual payload (the Rust code stringifies `d.data`, we
carry the resulting string directly). -/
inductive UserContent where
  | text (text : String)
  | toolResult (id : String) (content : List ToolResultContent)
  | image
  | audio
  | video
  | document (data : String)
deriving DecidableEq

/-- Modelled from the spec: assistant content part
(`crate::completion::message::AssistantContent`, declared outside `src/`).
`toolCall` carries the function name and the serialized arguments (the Rust
code stringifies `tc.function.arguments`, we carry the resulting string);
`reasoning` carries a sequence of reasoning fragments. -/
inductive AssistantContent where
  | text (text : String)
  | toolCall (name : String) (arguments : String)
  | reasoning (reasoning : List String)
  | image
deriving DecidableEq

/-- Modelled from the spec: a message, tagged `User` or `Assistant`, carrying
an ordered sequence of content parts (`crate::completion::Message`, declared
outside `src/`; fields the compression subsystem never reads are omitted). -/
inductive Message where
  | user (content : List UserContent)
  | assistant (content : List AssistantContent)
deriving DecidableEq

/-- `CompressionError` from `compression/traits.rs`. -/
inductive CompressionError where
  | estimationFailed (msg : String)
  | invalidStructure (msg : String)
  | compressionFailed (msg : String)
deriving DecidableEq

/-- Decidable equality of `Except` results (for evaluating the compressors
on concrete inputs). -/
instance {ε α : Type} [DecidableEq ε] [DecidableEq α] : DecidableEq (Except ε α) := fun a b =>
  match a, b with
  | .error e, .error f =>
      if h : e = f then isTrue (by subst h; rfl)
      else isFalse (by intro hh; injection hh; exact h ‹_›)
  | .ok x, .ok y =>
      if h : x = y then isTrue (by subst h; rfl)
      else isFalse (by intro hh; injection hh; exact h ‹_›)
  | .error _, .ok _ => isFalse (by intro hh; exact Except.noConfusion hh)
  | .ok _, .error _ => isFalse (by intro hh; exact Except.noConfusion hh)

/-! ### Exact model of the `f32` arithmetic used by the estimator

`estimate_tokens` computes `(text.len() as f32 / 3.4).ceil() as usize`.
We model a non-negative IEEE-754 binary32 value by its exact rational value,
kept as a `ℕ × ℕ` numerator/denominator pair so that every step is plain
`Nat` arithmetic the kernel can evaluate.  The `usize → f32` conversion, the
`3.4f32` literal and the `f32` division are all round-to-nearest with ties
to even at 24 significand bits.  Exponent clamping (subnormals, overflow) is
omitted: every value arising here lies well inside the normal range
(quotients of byte lengths `1 ≤ n < 2^64` by ≈3.4). -/

/-- `log2Fuel fuel n`: greatest `e` with `2 ^ e ≤ n` (and `0` for `n = 0`),
by repeated halving; fuel-structural so the kernel can evaluate it. -/
def log2Fuel : ℕ → ℕ → ℕ
  | 0, _ => 0
  | fuel + 1, n => if 2 ≤ n then log2Fuel fuel (n / 2) + 1 else 0

/-- Greatest `e` with `2 ^ e ≤ n`, for `n ≥ 1` (`n` itself is ample fuel). -/
def natLog2 (n : ℕ) : ℕ := log2Fuel n n

/-- `upExpFuel fuel p q`: smallest `k` with `q ≤ p * 2 ^ k`, by repeated
doubling; used for the binary exponent of fractions below 1. -/
def upExpFuel : ℕ → ℕ → ℕ → ℕ
  | 0, _, _ => 0
  | fuel + 1, p, q => if q ≤ p then 0 else upExpFuel fuel (2 * p) q + 1

/-- Round `a / b` to the nearest integer, ties to even (IEEE default
rounding applied to the integer-scaled significand). -/
def rhe (a b : ℕ) : ℕ :=
  let f := a / b
  if 2 * (a % b) < b then f
  else if b < 2 * (a % b) then f + 1
  else if f % 2 = 0 then f else f + 1

/-- The exact value, as a fraction, of the IEEE-754 binary32 float nearest
to `p / q` (round to nearest, ties to even): the significand is `p / q`
scaled into `[2^23, 2^24)` and rounded half-to-even.  The binary exponent
`e` of `p / q` satisfies `2 ^ e ≤ p / q < 2 ^ (e + 1)`; it is `natLog2
(p / q)` when `p ≥ q` and `-(upExpFuel q p q)` otherwise. -/
def f32round (p q : ℕ) : ℕ × ℕ :=
  if p = 0 ∨ q = 0 then (0, 1)
  else if q ≤ p then
    let e := natLog2 (p / q)
    if 23 ≤ e then (rhe p (q * 2 ^ (e - 23)) * 2 ^ (e - 23), 1)
    else (rhe (p * 2 ^ (23 - e)) q, 2 ^ (23 - e))
  else
    (rhe (p * 2 ^ (23 + upExpFuel q p q)) q, 2 ^ (23 + upExpFuel q p q))

/-! ### Token estimator (`compression/estimator.rs`) -/

/-- `CHARS_PER_TOKEN: f32 = 3.4` — the exact value of the `f32` literal
`3.4` (the binary32 nearest to 17/5), as a fraction. -/
def CHARS_PER_TOKEN : ℕ × ℕ := f32round 17 5

/-- `MESSAGE_OVERHEAD`: overhead tokens per message for role and formatting. -/
def MESSAGE_OVERHEAD : ℕ := 4

/-- Total UTF-8 byte size of a list of chars (Rust `str::len`). -/
def charsBytes : List Char → ℕ
  | [] => 0
  | c :: cs => c.utf8Size + charsBytes cs

/-- UTF-8 byte length of a string: Rust `text.len()` counts bytes. -/
def utf8Len (s : String) : ℕ := charsBytes s.data

/-- `estimate_tokens` as a function of the byte length:
`if empty then 0 else (len as f32 / CHARS_PER_TOKEN).ceil() as usize`.
The `as f32` conversion of the length, the `f32` division, and the final
(exact) `ceil` are each modelled by `f32round`/ceiling on exact fractions. -/
def estimateLen (n : ℕ) : ℕ :=
  if n = 0 then 0
  else
    let nf := f32round n 1
    let q := f32round (nf.1 * CHARS_PER_TOKEN.2) (nf.2 * CHARS_PER_TOKEN.1)
    (q.1 + q.2 - 1) / q.2

/-- `estimate_tokens(text)`: `text.is_empty()` is exactly `text.len() == 0`,
so the result depends on the text only through its UTF-8 byte length. -/
def estimate_tokens (text : String) : ℕ :=
  estimateLen (utf8Len text)

/-- `estimate_user_content_tokens` from `estimator.rs`. -/
def estimate_user_content_tokens : UserContent → ℕ
  | .text t => estimate_tokens t
  | .toolResult id content =>
      estimate_tokens id +
        (content.map fun c =>
          match c with
          | .text t => estimate_tokens t
          | .image => 85).sum
  | .image => 85
  | .audio => 100
  | .video => 100
  | .document d => estimate_tokens d

/-- `estimate_assistant_content_tokens` from `estimator.rs`. -/
def estimate_assistant_content_tokens : AssistantContent → ℕ
  | .text t => estimate_tokens t
  | .toolCall name arguments => estimate_tokens name + estimate_tokens arguments
  | .reasoning r => (r.map fun s => estimate_tokens s).sum
  | .image => 85

/-- `estimate_message_tokens`: per-part estimates plus `MESSAGE_OVERHEAD`. -/
def estimate_message_tokens (message : Message) : ℕ :=
  (match message with
   | .user content => (content.map estimate_user_content_tokens).sum
   | .assistant content => (content.map estimate_assistant_content_tokens).sum)
  + MESSAGE_OVERHEAD

/-- `estimate_messages_tokens`: sum over all messages. -/
def estimate_messages_tokens (messages : List Message) : ℕ :=
  (messages.map estimate_message_tokens).sum

/-! ### Common machinery for the compression strategies

`msgSlice messages a b` is the Rust slice `messages[a..b]`.  `findFit p stop
start` is the scan-with-break loop both `TruncationCompressor::compress`
(`while start_idx < max_start { if fits { break } start_idx += 1 }`) and
`SlidingWindowCompressor::compress` (`for start in middle_start..middle_end
{ if fits { ...; break } }`) perform: the least index in `[start, stop)`
satisfying `p`, or `none`. -/

/-- The Rust slice `messages[a..b]`. -/
def msgSlice (messages : List Message) (a b : ℕ) : List Message :=
  (messages.drop a).take (b - a)

/-- Scan upward from `start` for at most `fuel` indices, returning the
first one satisfying `p` (fuel-structural so the kernel can evaluate it). -/
def findFitAux (p : ℕ → Prop) [DecidablePred p] : ℕ → ℕ → Option ℕ
  | 0, _ => none
  | fuel + 1, start => if p start then some start else findFitAux p fuel (start + 1)

/-- First index in `[start, stop)` satisfying `p`, scanning upward: the
scan runs while `start < stop`, i.e. for exactly `stop - start` indices. -/
def findFit (p : ℕ → Prop) [DecidablePred p] (stop start : ℕ) : Option ℕ :=
  findFitAux p (stop - start) start

/-! ### `TruncationCompressor` (`compression/truncation.rs`) -/

/-- `TruncationCompressor` configuration: `min_preserve` messages are kept
from the end regardless of budget (`new()` sets 1). -/
structure TruncationCompressor where
  min_preserve : ℕ
deriving DecidableEq

/-- The suffix `messages[i..]` fits the budget. -/
def TruncationCompressor.suffixFits (messages : List Message) (max_tokens i : ℕ) : Prop :=
  estimate_messages_tokens (messages.drop i) ≤ max_tokens

instance (messages : List Message) (max_tokens : ℕ) :
    DecidablePred (TruncationCompressor.suffixFits messages max_tokens) :=
  fun _ => inferInstanceAs (Decidable (_ ≤ _))

/-- `max_start = messages.len().saturating_sub(self.min_preserve)`. -/
def TruncationCompressor.maxStart (c : TruncationCompressor) (messages : List Message) : ℕ :=
  messages.length - c.min_preserve

/-- The cut point the `while` loop of `TruncationCompressor::compress`
computes: the first index below `max_start` whose suffix fits, or
`max_start` when the scan exhausts. -/
def TruncationCompressor.startIdx (c : TruncationCompressor) (messages : List Message)
    (max_tokens : ℕ) : ℕ :=
  (findFit (TruncationCompressor.suffixFits messages max_tokens) (c.maxStart messages) 0).getD
    (c.maxStart messages)

/-- `TruncationCompressor::compress` from `truncation.rs`. -/
def TruncationCompressor.compress (c : TruncationCompressor) (messages : List Message)
    (max_tokens : ℕ) : Except CompressionError (List Message) :=
  if messages = [] then .ok messages
  else if estimate_messages_tokens messages ≤ max_tokens then .ok messages
  else .ok (messages.drop (c.startIdx messages max_tokens))

/-! ### `SlidingWindowCompressor` (`compression/sliding_window.rs`) -/

/-- `SlidingWindowCompressor` configuration (`new()` sets 0 and 2). -/
structure SlidingWindowCompressor where
  preserve_first : ℕ
  min_recent : ℕ
deriving DecidableEq

/-- `must_keep_start = self.preserve_first.min(total)`. -/
def SlidingWindowCompressor.mustKeepStart (c : SlidingWindowCompressor)
    (messages : List Message) : ℕ :=
  min c.preserve_first messages.length

/-- `must_keep_end = self.min_recent.min(total.saturating_sub(must_keep_start))`. -/
def SlidingWindowCompressor.mustKeepEnd (c : SlidingWindowCompressor)
    (messages : List Message) : ℕ :=
  min c.min_recent (messages.length - c.mustKeepStart messages)

/-- `preserved_start`: the first `must_keep_start` messages. -/
def SlidingWindowCompressor.preservedStart (c : SlidingWindowCompressor)
    (messages : List Message) : List Message :=
  messages.take (c.mustKeepStart messages)

/-- `preserved_end`: the messages from `total.saturating_sub(must_keep_end)`. -/
def SlidingWindowCompressor.preservedEnd (c : SlidingWindowCompressor)
    (messages : List Message) : List Message :=
  messages.drop (messages.length - c.mustKeepEnd messages)

/-- `preserved_tokens`: estimate of `preserved_start` plus `preserved_end`. -/
def SlidingWindowCompressor.preservedTokens (c : SlidingWindowCompressor)
    (messages : List Message) : ℕ :=
  estimate_messages_tokens (c.preservedStart messages) +
    estimate_messages_tokens (c.preservedEnd messages)

/-- `middle_start = must_keep_start`. -/
def SlidingWindowCompressor.middleStart (c : SlidingWindowCompressor)
    (messages : List Message) : ℕ :=
  c.mustKeepStart messages

/-- `middle_end = total.saturating_sub(must_keep_end)`. -/
def SlidingWindowCompressor.middleEnd (c : SlidingWindowCompressor)
    (messages : List Message) : ℕ :=
  messages.length - c.mustKeepEnd messages

/-- `remaining_budget = max_tokens.saturating_sub(preserved_tokens)`. -/
def SlidingWindowCompressor.remainingBudget (c : SlidingWindowCompressor)
    (messages : List Message) (max_tokens : ℕ) : ℕ :=
  max_tokens - c.preservedTokens messages

/-- The middle slice starting at `s` fits the remaining budget. -/
def SlidingWindowCompressor.middleFits (c : SlidingWindowCompressor)
    (messages : List Message) (max_tokens s : ℕ) : Prop :=
  estimate_messages_tokens (msgSlice messages s (c.middleEnd messages)) ≤
    c.remainingBudget messages max_tokens

instance (c : SlidingWindowCompressor) (messages : List Message) (max_tokens : ℕ) :
    DecidablePred (c.middleFits messages max_tokens) :=
  fun _ => inferInstanceAs (Decidable (_ ≤ _))

/-- `middle_window_start`: initialized to `middle_start`, set to the first
`start` in `middle_start..middle_end` whose slice fits (the loop `break`s
there); it thus stays `middle_start` when no suffix of the middle fits. -/
def SlidingWindowCompressor.middleWindowStart (c : SlidingWindowCompressor)
    (messages : List Message) (max_tokens : ℕ) : ℕ :=
  (findFit (c.middleFits messages max_tokens) (c.middleEnd messages)
      (c.middleStart messages)).getD (c.middleStart messages)

/-- `SlidingWindowCompressor::compress` from `sliding_window.rs`. -/
def SlidingWindowCompressor.compress (c : SlidingWindowCompressor) (messages : List Message)
    (max_tokens : ℕ) : Except CompressionError (List Message) :=
  if messages = [] then .ok messages
  else if estimate_messages_tokens messages ≤ max_tokens then .ok messages
  else if max_tokens < c.preservedTokens messages then .ok (c.preservedEnd messages)
  else if c.middleEnd messages ≤ c.middleStart messages then
    .ok (c.preservedStart messages ++ c.preservedEnd messages)
  else
    .ok (c.preservedStart messages ++
      msgSlice messages (c.middleWindowStart messages max_tokens) (c.middleEnd messages) ++
      c.preservedEnd messages)

/-! ### `SummarizingCompressor` (`compression/summarizing.rs`)

The `summarizer: Arc<P>` promptable capability (`prompt(text) -> Result`)
is modelled as an explicit function argument `String → Except String String`
(the error is used only through its `Display` text).  The single `await` is
the only effect; with the capability a pure function, `compress_async`
becomes a pure function of it. -/

/-- `SummarizingCompressor` configuration (`new()` sets 1, 2, 1000, none). -/
structure SummarizingCompressor where
  preserve_first : ℕ
  preserve_recent : ℕ
  max_summary_tokens : ℕ
  custom_prompt : Option String

/-- The built-in `SUMMARIZATION_PROMPT` template.  The Rust constant is a
long fixed Markdown instruction text; no claim here depends on its exact
wording, only on it being a fixed string containing the placeholder
`[CONVERSATION_HISTORY]` that `generate_summary` substitutes, so we keep
the opening line, the input marker and the placeholder. -/
def SUMMARIZATION_PROMPT : String :=
  "**Your Role:** You are a specialized AI Context Compression Engine.\n\n**Input:**\n[CONVERSATION_HISTORY]\n"

/-- The longest prefix of `t` of at most `limit` bytes.  (Rust slices the
first `limit` bytes with `&t[..limit]`, which coincides with this on ASCII
and panics off a char boundary; the byte counts match char-by-char.) -/
def bytePrefix (t : String) (limit : ℕ) : String :=
  (t.data.foldl
    (fun (acc : String × ℕ) c =>
      if acc.2 + c.utf8Size ≤ limit then (acc.1.push c, acc.2 + c.utf8Size) else acc)
    ("", 0)).1

/-- One tool-result content part rendered inside `[Tool Result for ...]`
(only `Text` parts are rendered; results over 2000 bytes are truncated). -/
def fmtToolResultPart : ToolResultContent → String
  | .text t =>
      (if 2000 < utf8Len t then bytePrefix t 2000 ++ "...[truncated]" else t) ++ "\n"
  | .image => ""

/-- One user content part of `format_messages_for_summary`. -/
def fmtUserContent : UserContent → String
  | .text t => t ++ "\n"
  | .toolResult id content =>
      "[Tool Result for \x27" ++ id ++ "\x27]:\n" ++
        String.join (content.map fmtToolResultPart)
  | .image => "[Image attached]\n"
  | .document d => "[Document: " ++ d ++ "]\n"
  | .audio => ""
  | .video => ""

/-- One assistant content part of `format_messages_for_summary` (tool-call
arguments over 500 bytes are truncated with an ellipsis). -/
def fmtAssistantContent : AssistantContent → String
  | .text t => t ++ "\n"
  | .toolCall name arguments =>
      "[Tool Call: " ++ name ++ "(" ++
        (if 500 < utf8Len arguments then bytePrefix arguments 500 ++ "..." else arguments) ++
        ")]\n"
  | .reasoning r => "[Reasoning: " ++ String.intercalate " " r ++ "]\n"
  | .image => "[Image generated]\n"

/-- `format_messages_for_summary`: messages flattened into a transcript,
each headed by its 1-based index and role tag and followed by a blank line. -/
def format_messages_for_summary (messages : List Message) : String :=
  String.join (messages.enum.map fun p =>
    (match p.2 with
     | .user content =>
        "**[User Message " ++ toString (p.1 + 1) ++ "]**\n" ++
          String.join (content.map fmtUserContent)
     | .assistant content =>
        "**[Assistant Message " ++ toString (p.1 + 1) ++ "]**\n" ++
          String.join (content.map fmtAssistantContent)) ++ "\n")

/-- `generate_summary`: substitute the transcript into the template (the
custom prompt if set) and issue the one summarizer call; a failure becomes
`CompressionFailed("Summarization failed: " + error text)`. -/
def SummarizingCompressor.generate_summary (c : SummarizingCompressor)
    (summarizer : String → Except String String) (messages : List Message) :
    Except CompressionError String :=
  match summarizer ((c.custom_prompt.getD SUMMARIZATION_PROMPT).replace
      "[CONVERSATION_HISTORY]" (format_messages_for_summary messages)) with
  | .error e => .error (.compressionFailed ("Summarization failed: " ++ e))
  | .ok response => .ok response

/-- The synthetic `Message::user(format!("**[CONTEXT CONTINUITY
BRIEFING]**..."))` wrapping a summary. -/
def briefingMessage (summary : String) : Message :=
  .user [.text ("**[CONTEXT CONTINUITY BRIEFING]**\n*The following is a compressed summary of the preceding conversation:*\n\n"
    ++ summary ++ "\n\n*[End of briefing - conversation continues below]*")]

/-- `preserve_start = self.preserve_first.min(total)`. -/
def SummarizingCompressor.preserveStartCount (c : SummarizingCompressor)
    (messages : List Message) : ℕ :=
  min c.preserve_first messages.length

/-- `preserve_end = self.preserve_recent.min(total.saturating_sub(preserve_start))`. -/
def SummarizingCompressor.preserveEndCount (c : SummarizingCompressor)
    (messages : List Message) : ℕ :=
  min c.preserve_recent (messages.length - c.preserveStartCount messages)

/-- `first_messages`: the first `preserve_start` messages. -/
def SummarizingCompressor.firstMessages (c : SummarizingCompressor)
    (messages : List Message) : List Message :=
  messages.take (c.preserveStartCount messages)

/-- `last_messages`: the messages from `total.saturating_sub(preserve_end)`. -/
def SummarizingCompressor.lastMessages (c : SummarizingCompressor)
    (messages : List Message) : List Message :=
  messages.drop (messages.length - c.preserveEndCount messages)

/-- `middle_start = preserve_start`. -/
def SummarizingCompressor.middleStart (c : SummarizingCompressor)
    (messages : List Message) : ℕ :=
  c.preserveStartCount messages

/-- `middle_end = total.saturating_sub(preserve_end)`. -/
def SummarizingCompressor.middleEnd (c : SummarizingCompressor)
    (messages : List Message) : ℕ :=
  messages.length - c.preserveEndCount messages

/-- `middle_messages = messages[middle_start..middle_end]`. -/
def SummarizingCompressor.middleMessages (c : SummarizingCompressor)
    (messages : List Message) : List Message :=
  msgSlice messages (c.middleStart messages) (c.middleEnd messages)

/-- `preserved_tokens`: estimate of `first_messages` plus `last_messages`. -/
def SummarizingCompressor.preservedTokens (c : SummarizingCompressor)
    (messages : List Message) : ℕ :=
  estimate_messages_tokens (c.firstMessages messages) +
    estimate_messages_tokens (c.lastMessages messages)

/-- `SummarizingCompressor::compress_async` from `summarizing.rs`. -/
def SummarizingCompressor.compress_async (c : SummarizingCompressor)
    (summarizer : String → Except String String) (messages : List Message)
    (max_tokens : ℕ) : Except CompressionError (List Message) :=
  if messages = [] then .ok messages
  else if estimate_messages_tokens messages ≤ max_tokens then .ok messages
  else if c.middleEnd messages ≤ c.middleStart messages then
    .ok (c.firstMessages messages ++ c.lastMessages messages)
  else if estimate_messages_tokens (c.middleMessages messages) < 100 then
    .ok (c.firstMessages messages ++ c.lastMessages messages)
  else
    match c.generate_summary summarizer (c.middleMessages messages) with
    | .error e => .error e
    | .ok summary =>
      if max_tokens < c.preservedTokens messages + estimate_tokens summary then
        .ok (c.firstMessages messages ++ c.lastMessages messages)
      else
        .ok (c.firstMessages messages ++ [briefingMessage summary] ++ c.lastMessages messages)

/-- The synchronous `SummarizingCompressor::compress`: never calls the
summarizer, keeps head and tail and discards the middle outright. -/
def SummarizingCompressor.compress (c : SummarizingCompressor) (messages : List Message)
    (max_tokens : ℕ) : Except CompressionError (List Message) :=
  if messages = [] then .ok messages
  else if estimate_messages_tokens messages ≤ max_tokens then .ok messages
  else .ok (c.firstMessages messages ++ c.lastMessages messages)

/-! ### Helper lemmas: the scan loop and slicing -/

theorem findFitAux_some_spec {p : ℕ → Prop} [DecidablePred p] :
    ∀ {fuel start s : ℕ}, findFitAux p fuel start = some s →
      start ≤ s ∧ s < start + fuel ∧ p s ∧ ∀ i, start ≤ i → i < s → ¬ p i := by
  intro fuel
  induction fuel with
  | zero => intro start s h; exact absurd h (by simp [findFitAux])
  | succ n ih =>
    intro start s h
    rw [findFitAux] at h
    by_cases hp : p start
    · rw [if_pos hp] at h
      cases h
      exact ⟨le_refl _, by omega, hp, fun i h1 h2 => absurd h2 (by omega)⟩
    · rw [if_neg hp] at h
      obtain ⟨h1, h2, h3, h4⟩ := ih h
      refine ⟨by omega, by omega, h3, fun i hi1 hi2 => ?_⟩
      rcases Nat.eq_or_lt_of_le hi1 with rfl | hlt
      · exact hp
      · exact h4 i hlt hi2

theorem findFitAux_none_spec {p : ℕ → Prop} [DecidablePred p] :
    ∀ {fuel start : ℕ}, findFitAux p fuel start = none →
      ∀ i, start ≤ i → i < start + fuel → ¬ p i := by
  intro fuel
  induction fuel with
  | zero => intro start _ i h1 h2; omega
  | succ n ih =>
    intro start h i h1 h2
    rw [findFitAux] at h
    by_cases hp : p start
    · rw [if_pos hp] at h; cases h
    · rw [if_neg hp] at h
      rcases Nat.eq_or_lt_of_le h1 with rfl | hlt
      · exact hp
      · exact ih h i hlt (by omega)

theorem findFit_some_spec {p : ℕ → Prop} [DecidablePred p] {stop start s : ℕ}
    (h : findFit p stop start = some s) :
    start ≤ s ∧ s < stop ∧ p s ∧ ∀ i, start ≤ i → i < s → ¬ p i := by
  obtain ⟨h1, h2, h3, h4⟩ := findFitAux_some_spec h
  exact ⟨h1, by omega, h3, h4⟩

theorem findFit_none_spec {p : ℕ → Prop} [DecidablePred p] {stop start : ℕ}
    (h : findFit p stop start = none) : ∀ i, start ≤ i → i < stop → ¬ p i := by
  intro i h1 h2
  exact findFitAux_none_spec h i h1 (by omega)

/-- Dropping an inner segment of a list leaves a sublist: the concatenation
of `l.take a` and `l.drop b` with `a ≤ b` is a sublist of `l`. -/
theorem take_append_drop_sublist {α : Type} (l : List α) (a b : ℕ) (hab : a ≤ b) :
    (l.take a ++ l.drop b).Sublist l := by
  have hdrop : l.drop b = (l.drop a).drop (b - a) := by
    rw [List.drop_drop]
    congr 1
    omega
  conv_rhs => rw [← List.take_append_drop a l]
  rw [hdrop]
  exact (List.drop_sublist _ _).append_left _

/-- Keeping a head, an inner slice starting no earlier than the head ends,
and the tail from the slice's end, is a sublist. -/
theorem take_slice_drop_sublist {α : Type} (l : List α) (a s b : ℕ)
    (has : a ≤ s) (hsb : s ≤ b) :
    (l.take a ++ ((l.drop s).take (b - s) ++ l.drop b)).Sublist l := by
  have hdrop : l.drop b = (l.drop s).drop (b - s) := by
    rw [List.drop_drop]
    congr 1
    omega
  rw [hdrop, List.take_append_drop]
  conv_rhs => rw [← List.take_append_drop a l]
  have hdrop2 : l.drop s = (l.drop a).drop (s - a) := by
    rw [List.drop_drop]
    congr 1
    omega
  rw [hdrop2]
  exact (List.drop_sublist _ _).append_left _

/-! ### Output shape of each strategy -/

/-- The head index the sliding window preserves never passes the start of
the preserved tail. -/
theorem SlidingWindowCompressor.mustKeepStart_le (c : SlidingWindowCompressor)
    (messages : List Message) :
    c.mustKeepStart messages ≤ messages.length - c.mustKeepEnd messages := by
  have h1 : c.mustKeepStart messages ≤ messages.length := min_le_right _ _
  have h2 : c.mustKeepEnd messages ≤ messages.length - c.mustKeepStart messages :=
    min_le_right _ _
  omega

/-- Every successful truncation output is a sublist of the input. -/
theorem truncation_output_sublist (c : TruncationCompressor)
    (messages : List Message) (max_tokens : ℕ) {r : List Message}
    (h : c.compress messages max_tokens = .ok r) : r.Sublist messages := by
  unfold TruncationCompressor.compress at h
  split_ifs at h <;> cases h
  · exact List.Sublist.refl _
  · exact List.Sublist.refl _
  · exact List.drop_sublist _ _

/-- Every successful sliding-window output is a sublist of the input. -/
theorem sliding_window_output_sublist (c : SlidingWindowCompressor)
    (messages : List Message) (max_tokens : ℕ) {r : List Message}
    (h : c.compress messages max_tokens = .ok r) : r.Sublist messages := by
  have hkeep := c.mustKeepStart_le messages
  unfold SlidingWindowCompressor.compress at h
  split_ifs at h with h1 h2 h3 h4 <;> cases h
  · exact List.Sublist.refl _
  · exact List.Sublist.refl _
  · exact List.drop_sublist _ _
  · exact take_append_drop_sublist messages _ _ hkeep
  · have hms : c.middleStart messages < c.middleEnd messages := by omega
    have hbound : c.middleStart messages ≤ c.middleWindowStart messages max_tokens ∧
        c.middleWindowStart messages max_tokens ≤ c.middleEnd messages := by
      unfold SlidingWindowCompressor.middleWindowStart
      cases hf : findFit (c.middleFits messages max_tokens) (c.middleEnd messages)
          (c.middleStart messages) with
      | none => exact ⟨le_refl _, le_of_lt hms⟩
      | some s =>
        obtain ⟨hs1, hs2, _, _⟩ := findFit_some_spec hf
        exact ⟨hs1, le_of_lt hs2⟩
    rw [List.append_assoc]
    exact take_slice_drop_sublist messages _ _ _ hbound.1 hbound.2

/-- The preserved head and tail of the summarizing compressor form a
sublist of the input. -/
theorem SummarizingCompressor.firstLast_sublist (c : SummarizingCompressor)
    (messages : List Message) :
    (c.firstMessages messages ++ c.lastMessages messages).Sublist messages := by
  apply take_append_drop_sublist
  have h1 : c.preserveStartCount messages ≤ messages.length := min_le_right _ _
  have h2 : c.preserveEndCount messages ≤ messages.length - c.preserveStartCount messages :=
    min_le_right _ _
  omega

/-- Every successful synchronous summarizing output is a sublist. -/
theorem summarizing_sync_output_sublist (c : SummarizingCompressor)
    (messages : List Message) (max_tokens : ℕ) {r : List Message}
    (h : c.compress messages max_tokens = .ok r) : r.Sublist messages := by
  unfold SummarizingCompressor.compress at h
  split_ifs at h <;> cases h
  · exact List.Sublist.refl _
  · exact List.Sublist.refl _
  · exact c.firstLast_sublist messages

/-- Every successful `compress_async` output is either a sublist of the
input or the preserved head and tail with exactly one synthetic briefing
message (produced by a successful summarizer call) between them. -/
theorem SummarizingCompressor.compress_async_ok_shape (c : SummarizingCompressor)
    (summarizer : String → Except String String) (messages : List Message)
    (max_tokens : ℕ) {r : List Message}
    (h : c.compress_async summarizer messages max_tokens = .ok r) :
    r.Sublist messages ∨
      ∃ summary, c.generate_summary summarizer (c.middleMessages messages) = .ok summary ∧
        r = c.firstMessages messages ++ [briefingMessage summary] ++ c.lastMessages messages := by
  unfold SummarizingCompressor.compress_async at h
  split_ifs at h
  · cases h; exact .inl (List.Sublist.refl _)
  · cases h; exact .inl (List.Sublist.refl _)
  · cases h; exact .inl (c.firstLast_sublist messages)
  · cases h; exact .inl (c.firstLast_sublist messages)
  · split at h
    next e heq => exact Except.noConfusion h
    next summary heq =>
      split_ifs at h <;> cases h
      · exact .inl (c.firstLast_sublist messages)
      · exact .inr ⟨summary, heq, rfl⟩

/-! ### The estimator formula: `f32` result versus exact rational ceiling -/

/-- Modelled from the spec: the spec formula `ceil(character_length / 3.4)`
in exact rational arithmetic over the CHARACTER count of the text (for
comparison with `estimate_tokens`, which the source computes from the byte
count in `f32`). -/
def specCharCeil (s : String) : ℕ :=
  (⌈(s.length : ℚ) / (17 / 5)⌉).toNat

/-- The exact rational ceiling `ceil(n / 3.4)` equals `(5n + 16) / 17` in
natural-number division. -/
theorem ratCeilDiv (n : ℕ) : (⌈(n : ℚ) / (17 / 5)⌉).toNat = (5 * n + 16) / 17 := by
  have hdiv : ((n : ℚ)) / (17 / 5) = ((5 * n : ℕ) : ℚ) / 17 := by
    push_cast
    ring
  have hm1 : 17 * ((5 * n + 16) / 17) ≤ 5 * n + 16 := by omega
  have hm2 : 5 * n ≤ 17 * ((5 * n + 16) / 17) := by omega
  have hceil : ⌈((5 * n : ℕ) : ℚ) / 17⌉ = (((5 * n + 16) / 17 : ℕ) : ℤ) := by
    rw [Int.ceil_eq_iff]
    qify at hm1 hm2
    constructor
    · rw [lt_div_iff₀ (by norm_num : (0 : ℚ) < 17)]
      push_cast
      linarith
    · rw [div_le_iff₀ (by norm_num : (0 : ℚ) < 17)]
      push_cast
      linarith
  rw [hdiv, hceil, Int.toNat_natCast]

set_option maxRecDepth 20000 in
theorem estimateLen_exact_c0 : ∀ m, m ≤ 255 →
    estimateLen (256 * 0 + m) =
      if 256 * 0 + m = 0 then 0 else (5 * (256 * 0 + m) + 16) / 17 := by decide

set_option maxRecDepth 20000 in
theorem estimateLen_exact_c1 : ∀ m, m ≤ 255 →
    estimateLen (256 * 1 + m) =
      if 256 * 1 + m = 0 then 0 else (5 * (256 * 1 + m) + 16) / 17 := by decide

set_option maxRecDepth 20000 in
theorem estimateLen_exact_c2 : ∀ m, m ≤ 255 →
    estimateLen (256 * 2 + m) =
      if 256 * 2 + m = 0 then 0 else (5 * (256 * 2 + m) + 16) / 17 := by decide

set_option maxRecDepth 20000 in
theorem estimateLen_exact_c3 : ∀ m, m ≤ 255 →
    estimateLen (256 * 3 + m) =
      if 256 * 3 + m = 0 then 0 else (5 * (256 * 3 + m) + 16) / 17 := by decide

set_option maxRecDepth 20000 in
theorem estimateLen_exact_c4 : ∀ m, m ≤ 255 →
    estimateLen (256 * 4 + m) =
      if 256 * 4 + m = 0 then 0 else (5 * (256 * 4 + m) + 16) / 17 := by decide

set_option maxRecDepth 20000 in
theorem estimateLen_exact_c5 : ∀ m, m ≤ 255 →
    estimateLen (256 * 5 + m) =
      if 256 * 5 + m = 0 then 0 else (5 * (256 * 5 + m) + 16) / 17 := by decide

set_option maxRecDepth 20000 in
theorem estimateLen_exact_c6 : ∀ m, m ≤ 255 →
    estimateLen (256 * 6 + m) =
      if 256 * 6 + m = 0 then 0 else (5 * (256 * 6 + m) + 16) / 17 := by decide

set_option maxRecDepth 20000 in
theorem estimateLen_exact_c7 : ∀ m, m ≤ 255 →
    estimateLen (256 * 7 + m) =
      if 256 * 7 + m = 0 then 0 else (5 * (256 * 7 + m) + 16) / 17 := by decide

set_option maxRecDepth 20000 in
theorem estimateLen_exact_c8 : ∀ m, m ≤ 255 →
    estimateLen (256 * 8 + m) =
      if 256 * 8 + m = 0 then 0 else (5 * (256 * 8 + m) + 16) / 17 := by decide

set_option maxRecDepth 20000 in
theorem estimateLen_exact_c9 : ∀ m, m ≤ 255 →
    estimateLen (256 * 9 + m) =
      if 256 * 9 + m = 0 then 0 else (5 * (256 * 9 + m) + 16) / 17 := by decide

set_option maxRecDepth 20000 in
theorem estimateLen_exact_c10 : ∀ m, m ≤ 255 →
    estimateLen (256 * 10 + m) =
      if 256 * 10 + m = 0 then 0 else (5 * (256 * 10 + m) + 16) / 17 := by decide

set_option maxRecDepth 20000 in
theorem estimateLen_exact_c11 : ∀ m, m ≤ 255 →
    estimateLen (256 * 11 + m) =
      if 256 * 11 + m = 0 then 0 else (5 * (256 * 11 + m) + 16) / 17 := by decide

set_option maxRecDepth 20000 in
theorem estimateLen_exact_c12 : ∀ m, m ≤ 255 →
    estimateLen (256 * 12 + m) =
      if 256 * 12 + m = 0 then 0 else (5 * (256 * 12 + m) + 16) / 17 := by decide

set_option maxRecDepth 20000 in
theorem estimateLen_exact_c13 : ∀ m, m ≤ 255 →
    estimateLen (256 * 13 + m) =
      if 256 * 13 + m = 0 then 0 else (5 * (256 * 13 + m) + 16) / 17 := by decide

set_option maxRecDepth 20000 in
theorem estimateLen_exact_c14 : ∀ m, m ≤ 255 →
    estimateLen (256 * 14 + m) =
      if 256 * 14 + m = 0 then 0 else (5 * (256 * 14 + m) + 16) / 17 := by decide

set_option maxRecDepth 20000 in
theorem estimateLen_exact_c15 : ∀ m, m ≤ 255 →
    estimateLen (256 * 15 + m) =
      if 256 * 15 + m = 0 then 0 else (5 * (256 * 15 + m) + 16) / 17 := by decide

/-- For byte lengths up to 4096 the `f32` computation agrees with the exact
rational ceiling (it first diverges in the millions, e.g. at 3565162). -/
theorem estimateLen_exact {n : ℕ} (h : n ≤ 4096) :
    estimateLen n = if n = 0 then 0 else (5 * n + 16) / 17 := by
  rcases Nat.eq_or_lt_of_le h with rfl | hlt
  · decide
  · obtain ⟨k, m, hk, hm, rfl⟩ : ∃ k m, k < 16 ∧ m ≤ 255 ∧ 256 * k + m = n :=
      ⟨n / 256, n % 256, by omega, by omega, by omega⟩
    interval_cases k
    · exact estimateLen_exact_c0 m hm
    · exact estimateLen_exact_c1 m hm
    · exact estimateLen_exact_c2 m hm
    · exact estimateLen_exact_c3 m hm
    · exact estimateLen_exact_c4 m hm
    · exact estimateLen_exact_c5 m hm
    · exact estimateLen_exact_c6 m hm
    · exact estimateLen_exact_c7 m hm
    · exact estimateLen_exact_c8 m hm
    · exact estimateLen_exact_c9 m hm
    · exact estimateLen_exact_c10 m hm
    · exact estimateLen_exact_c11 m hm
    · exact estimateLen_exact_c12 m hm
    · exact estimateLen_exact_c13 m hm
    · exact estimateLen_exact_c14 m hm
    · exact estimateLen_exact_c15 m hm

/-- A non-empty string has a positive byte length. -/
theorem utf8Len_pos {s : String} (h : s ≠ "") : 0 < utf8Len s := by
  rcases s with ⟨data⟩
  cases data with
  | nil => exact absurd rfl h
  | cons c cs =>
    have hc : 0 < c.utf8Size := Char.utf8Size_pos c
    show 0 < c.utf8Size + charsBytes cs
    omega

/-! ### Concrete instances used by witnesses and counterexamples -/

/-- A minimal message: one empty text part, so 4 tokens (pure overhead). -/
def msg4 : Message := .user [.text ""]

/-- A heavy message: two image parts, so 85 + 85 + 4 = 174 tokens. -/
def bigMid : Message := .user [.image, .image]

/-- A summarizer that always succeeds with the fixed summary "ok". -/
def szConst : String → Except String String := fun _ => .ok "ok"

/-- A summarizer whose prompt call always fails with error text "boom". -/
def szFail : String → Except String String := fun _ => .error "boom"

/-- A truncation compressor with `min_preserve = 1` (the default). -/
def tcW : TruncationCompressor := ⟨1⟩

/-- A sliding-window compressor preserving one head and one tail message. -/
def swcW : SlidingWindowCompressor := ⟨1, 1⟩

/-- A summarizing compressor preserving one head and one tail message. -/
def scW : SummarizingCompressor := ⟨1, 1, 1000, none⟩

/-- Four minimal messages (16 tokens). -/
def histW4 : List Message := [msg4, msg4, msg4, msg4]

/-- A light head and tail around a heavy middle (182 tokens). -/
def histW3 : List Message := [msg4, bigMid, msg4]

/-! ### The claims -/

/-- C1 (amended): for `SlidingWindowCompressor::compress` on a non-empty,
over-budget history whose preserved head and tail together fit
`max_tokens` and whose middle is non-empty, the surviving middle portion is
the earliest (largest) suffix of the middle whose estimated token cost fits
the remaining budget; but when no suffix of the middle fits, the output
keeps the ENTIRE middle (the loop leaves `middle_window_start` at
`middle_start`), i.e. it equals
`preserved_start ++ middle ++ preserved_end`, not
`preserved_start ++ preserved_end`. -/
theorem sliding_window_middle_selection (c : SlidingWindowCompressor)
    (messages : List Message) (max_tokens : ℕ)
    (hne : messages ≠ [])
    (hover : max_tokens < estimate_messages_tokens messages)
    (hpres : c.preservedTokens messages ≤ max_tokens)
    (hmid : c.middleStart messages < c.middleEnd messages) :
    ((∃ s, c.middleStart messages ≤ s ∧ s < c.middleEnd messages ∧
        c.middleFits messages max_tokens s) →
      ∃ s₀, c.middleStart messages ≤ s₀ ∧ s₀ < c.middleEnd messages ∧
        c.middleFits messages max_tokens s₀ ∧
        (∀ t, c.middleStart messages ≤ t → t < s₀ → ¬ c.middleFits messages max_tokens t) ∧
        c.compress messages max_tokens =
          .ok (c.preservedStart messages ++
            msgSlice messages s₀ (c.middleEnd messages) ++ c.preservedEnd messages)) ∧
    ((∀ s, c.middleStart messages ≤ s → s < c.middleEnd messages →
        ¬ c.middleFits messages max_tokens s) →
      c.compress messages max_tokens =
        .ok (c.preservedStart messages ++
          msgSlice messages (c.middleStart messages) (c.middleEnd messages) ++
          c.preservedEnd messages)) := by
  have hcomp : c.compress messages max_tokens =
      .ok (c.preservedStart messages ++
        msgSlice messages (c.middleWindowStart messages max_tokens) (c.middleEnd messages) ++
        c.preservedEnd messages) := by
    unfold SlidingWindowCompressor.compress
    rw [if_neg hne, if_neg (not_le.mpr hover), if_neg (not_lt.mpr hpres),
      if_neg (not_le.mpr hmid)]
  constructor
  · rintro ⟨s, hs1, hs2, hs3⟩
    cases hf : findFit (c.middleFits messages max_tokens) (c.middleEnd messages)
        (c.middleStart messages) with
    | none => exact absurd hs3 (findFit_none_spec hf s hs1 hs2)
    | some s₀ =>
      obtain ⟨h1, h2, h3, h4⟩ := findFit_some_spec hf
      have hw : c.middleWindowStart messages max_tokens = s₀ := by
        unfold SlidingWindowCompressor.middleWindowStart
        rw [hf]
        rfl
      rw [hw] at hcomp
      exact ⟨s₀, h1, h2, h3, h4, hcomp⟩
  · intro hnone
    cases hf : findFit (c.middleFits messages max_tokens) (c.middleEnd messages)
        (c.middleStart messages) with
    | none =>
      have hw : c.middleWindowStart messages max_tokens = c.middleStart messages := by
        unfold SlidingWindowCompressor.middleWindowStart
        rw [hf]
        rfl
      rw [hw] at hcomp
      exact hcomp
    | some s₀ =>
      obtain ⟨h1, h2, h3, _⟩ := findFit_some_spec hf
      exact absurd h3 (hnone s₀ h1 h2)

/-- Witness for C1: four minimal messages with budget 13; the middle is
`[1, 3)` and its one-message suffix fits the remaining budget. -/
theorem sliding_window_middle_selection_witness :
    ((∃ s, swcW.middleStart histW4 ≤ s ∧ s < swcW.middleEnd histW4 ∧
        swcW.middleFits histW4 13 s) →
      ∃ s₀, swcW.middleStart histW4 ≤ s₀ ∧ s₀ < swcW.middleEnd histW4 ∧
        swcW.middleFits histW4 13 s₀ ∧
        (∀ t, swcW.middleStart histW4 ≤ t → t < s₀ → ¬ swcW.middleFits histW4 13 t) ∧
        swcW.compress histW4 13 =
          .ok (swcW.preservedStart histW4 ++
            msgSlice histW4 s₀ (swcW.middleEnd histW4) ++ swcW.preservedEnd histW4)) ∧
    ((∀ s, swcW.middleStart histW4 ≤ s → s < swcW.middleEnd histW4 →
        ¬ swcW.middleFits histW4 13 s) →
      swcW.compress histW4 13 =
        .ok (swcW.preservedStart histW4 ++
          msgSlice histW4 (swcW.middleStart histW4) (swcW.middleEnd histW4) ++
          swcW.preservedEnd histW4)) :=
  sliding_window_middle_selection swcW histW4 13 (by decide) (by decide) (by decide)
    (by decide)

/-- Counterexample for C1 as stated: three minimal messages (12 tokens) with
budget 8 and one preserved message on each side: the head and tail fit the
budget exactly, the middle is the single index 1, no suffix of the middle
fits the remaining budget 0 — yet the output keeps the whole input (the
entire middle) instead of `preserved_start ++ preserved_end`. -/
theorem sliding_window_no_fit_counterexample :
    8 < estimate_messages_tokens [msg4, msg4, msg4] ∧
    SlidingWindowCompressor.preservedTokens ⟨1, 1⟩ [msg4, msg4, msg4] ≤ 8 ∧
    SlidingWindowCompressor.middleStart ⟨1, 1⟩ [msg4, msg4, msg4] = 1 ∧
    SlidingWindowCompressor.middleEnd ⟨1, 1⟩ [msg4, msg4, msg4] = 2 ∧
    SlidingWindowCompressor.remainingBudget ⟨1, 1⟩ [msg4, msg4, msg4] 8 <
      estimate_messages_tokens (msgSlice [msg4, msg4, msg4] 1 2) ∧
    SlidingWindowCompressor.compress ⟨1, 1⟩ [msg4, msg4, msg4] 8 =
      .ok [msg4, msg4, msg4] ∧
    SlidingWindowCompressor.compress ⟨1, 1⟩ [msg4, msg4, msg4] 8 ≠
      .ok (SlidingWindowCompressor.preservedStart ⟨1, 1⟩ [msg4, msg4, msg4] ++
        SlidingWindowCompressor.preservedEnd ⟨1, 1⟩ [msg4, msg4, msg4]) := by
  decide

/-- C2: whenever the estimated tokens of the history are within the budget,
every strategy — truncation, sliding window, summarizing (synchronous and
asynchronous, for any summarizer) — returns `Ok` of the input unchanged. -/
theorem within_budget_identity (tc : TruncationCompressor) (swc : SlidingWindowCompressor)
    (sc : SummarizingCompressor) (sz : String → Except String String)
    (messages : List Message) (max_tokens : ℕ)
    (h : estimate_messages_tokens messages ≤ max_tokens) :
    tc.compress messages max_tokens = .ok messages ∧
    swc.compress messages max_tokens = .ok messages ∧
    sc.compress messages max_tokens = .ok messages ∧
    sc.compress_async sz messages max_tokens = .ok messages := by
  refine ⟨?_, ?_, ?_, ?_⟩
  · unfold TruncationCompressor.compress
    by_cases hm : messages = []
    · rw [if_pos hm]
    · rw [if_neg hm, if_pos h]
  · unfold SlidingWindowCompressor.compress
    by_cases hm : messages = []
    · rw [if_pos hm]
    · rw [if_neg hm, if_pos h]
  · unfold SummarizingCompressor.compress
    by_cases hm : messages = []
    · rw [if_pos hm]
    · rw [if_neg hm, if_pos h]
  · unfold SummarizingCompressor.compress_async
    by_cases hm : messages = []
    · rw [if_pos hm]
    · rw [if_neg hm, if_pos h]

/-- Witness for C2: a one-message history of 4 tokens within a budget of
100 is returned unchanged by all four entry points. -/
theorem within_budget_identity_witness :
    tcW.compress [msg4] 100 = .ok [msg4] ∧
    swcW.compress [msg4] 100 = .ok [msg4] ∧
    scW.compress [msg4] 100 = .ok [msg4] ∧
    scW.compress_async szConst [msg4] 100 = .ok [msg4] :=
  within_budget_identity tcW swcW scW szConst [msg4] 100 (by decide)

/-- C5: for `TruncationCompressor::compress` on a non-empty, over-budget
history, the output is the suffix `messages[start_idx..]` where
`start_idx` is the smallest index in `[0, len - min_preserve]` whose suffix
fits the budget, or `len - min_preserve` when no scanned candidate fits;
consequently the output is a suffix of the input with length between
`min(min_preserve, len)` and `len`. -/
theorem truncation_cut_point (c : TruncationCompressor) (messages : List Message)
    (max_tokens : ℕ) (hne : messages ≠ [])
    (hover : max_tokens < estimate_messages_tokens messages) :
    ∃ start_idx,
      c.compress messages max_tokens = .ok (messages.drop start_idx) ∧
      start_idx ≤ messages.length - c.min_preserve ∧
      ((estimate_messages_tokens (messages.drop start_idx) ≤ max_tokens ∧
          ∀ j < start_idx, max_tokens < estimate_messages_tokens (messages.drop j)) ∨
        (start_idx = messages.length - c.min_preserve ∧
          ∀ j < start_idx, max_tokens < estimate_messages_tokens (messages.drop j))) ∧
      (messages.drop start_idx).IsSuffix messages ∧
      min c.min_preserve messages.length ≤ (messages.drop start_idx).length ∧
      (messages.drop start_idx).length ≤ messages.length := by
  have hcomp : c.compress messages max_tokens =
      .ok (messages.drop (c.startIdx messages max_tokens)) := by
    unfold TruncationCompressor.compress
    rw [if_neg hne, if_neg (not_le.mpr hover)]
  cases hf : findFit (TruncationCompressor.suffixFits messages max_tokens)
      (c.maxStart messages) 0 with
  | some s =>
    obtain ⟨_, h2, h3, h4⟩ := findFit_some_spec hf
    have hidx : c.startIdx messages max_tokens = s := by
      unfold TruncationCompressor.startIdx
      rw [hf]
      rfl
    rw [hidx] at hcomp
    have hs : s ≤ messages.length - c.min_preserve := by
      unfold TruncationCompressor.maxStart at h2
      omega
    refine ⟨s, hcomp, hs,
      .inl ⟨h3, fun j hj => Nat.not_le.mp (h4 j (Nat.zero_le j) hj)⟩,
      List.drop_suffix _ _, ?_, ?_⟩
    · rw [List.length_drop]
      omega
    · rw [List.length_drop]
      omega
  | none =>
    have hidx : c.startIdx messages max_tokens = c.maxStart messages := by
      unfold TruncationCompressor.startIdx
      rw [hf]
      rfl
    have hnone := findFit_none_spec hf
    rw [hidx] at hcomp
    refine ⟨c.maxStart messages, hcomp, le_refl _,
      .inr ⟨rfl, fun j hj => Nat.not_le.mp (hnone j (Nat.zero_le j) hj)⟩,
      List.drop_suffix _ _, ?_, ?_⟩
    · rw [List.length_drop]
      unfold TruncationCompressor.maxStart
      omega
    · rw [List.length_drop]
      omega

/-- Witness for C5: three messages of 182 tokens against budget 50 with
`min_preserve = 1`. -/
theorem truncation_cut_point_witness :
    ∃ start_idx,
      tcW.compress histW3 50 = .ok (histW3.drop start_idx) ∧
      start_idx ≤ histW3.length - tcW.min_preserve ∧
      ((estimate_messages_tokens (histW3.drop start_idx) ≤ 50 ∧
          ∀ j < start_idx, 50 < estimate_messages_tokens (histW3.drop j)) ∨
        (start_idx = histW3.length - tcW.min_preserve ∧
          ∀ j < start_idx, 50 < estimate_messages_tokens (histW3.drop j))) ∧
      (histW3.drop start_idx).IsSuffix histW3 ∧
      min tcW.min_preserve histW3.length ≤ (histW3.drop start_idx).length ∧
      (histW3.drop start_idx).length ≤ histW3.length :=
  truncation_cut_point tcW histW3 50 (by decide) (by decide)

/-- C6: for `SlidingWindowCompressor::compress` on a non-empty, over-budget
history, if the preserved head and tail together exceed `max_tokens` the
output is exactly the preserved tail; otherwise the output contains the
full preserved head and the full preserved tail (with some middle part, by
value, between them). -/
theorem sliding_window_preserved_sections (c : SlidingWindowCompressor)
    (messages : List Message) (max_tokens : ℕ)
    (hne : messages ≠ [])
    (hover : max_tokens < estimate_messages_tokens messages) :
    (max_tokens < c.preservedTokens messages →
      c.compress messages max_tokens = .ok (c.preservedEnd messages)) ∧
    (c.preservedTokens messages ≤ max_tokens →
      ∃ mid, c.compress messages max_tokens =
        .ok (c.preservedStart messages ++ mid ++ c.preservedEnd messages)) := by
  constructor
  · intro hp
    unfold SlidingWindowCompressor.compress
    rw [if_neg hne, if_neg (not_le.mpr hover), if_pos hp]
  · intro hp
    unfold SlidingWindowCompressor.compress
    rw [if_neg hne, if_neg (not_le.mpr hover), if_neg (not_lt.mpr hp)]
    by_cases hm : c.middleEnd messages ≤ c.middleStart messages
    · rw [if_pos hm]
      exact ⟨[], by simp⟩
    · rw [if_neg hm]
      exact ⟨msgSlice messages (c.middleWindowStart messages max_tokens)
        (c.middleEnd messages), rfl⟩

/-- Witness for C6: three minimal messages with budget 8 (preserved head
and tail cost exactly 8, so the second branch applies). -/
theorem sliding_window_preserved_sections_witness :
    (8 < swcW.preservedTokens [msg4, msg4, msg4] →
      swcW.compress [msg4, msg4, msg4] 8 = .ok (swcW.preservedEnd [msg4, msg4, msg4])) ∧
    (swcW.preservedTokens [msg4, msg4, msg4] ≤ 8 →
      ∃ mid, swcW.compress [msg4, msg4, msg4] 8 =
        .ok (swcW.preservedStart [msg4, msg4, msg4] ++ mid ++
          swcW.preservedEnd [msg4, msg4, msg4])) :=
  sliding_window_preserved_sections swcW [msg4, msg4, msg4] 8 (by decide) (by decide)

/-- C3: for every strategy, configuration, history and budget, the
surviving input messages appear in the output in input order: each
successful output is a sublist of the input, except that `compress_async`
may additionally inject exactly one synthetic briefing message between the
preserved head and tail, which themselves form a sublist of the input. -/
theorem ordering_preserved (tc : TruncationCompressor) (swc : SlidingWindowCompressor)
    (sc : SummarizingCompressor) (sz : String → Except String String)
    (messages : List Message) (max_tokens : ℕ) :
    (∀ r, tc.compress messages max_tokens = .ok r → r.Sublist messages) ∧
    (∀ r, swc.compress messages max_tokens = .ok r → r.Sublist messages) ∧
    (∀ r, sc.compress messages max_tokens = .ok r → r.Sublist messages) ∧
    (∀ r, sc.compress_async sz messages max_tokens = .ok r →
      r.Sublist messages ∨
        ∃ summary, r = sc.firstMessages messages ++ [briefingMessage summary] ++
            sc.lastMessages messages ∧
          (sc.firstMessages messages ++ sc.lastMessages messages).Sublist messages) := by
  refine ⟨fun r h => truncation_output_sublist tc messages max_tokens h,
    fun r h => sliding_window_output_sublist swc messages max_tokens h,
    fun r h => summarizing_sync_output_sublist sc messages max_tokens h,
    fun r h => ?_⟩
  rcases sc.compress_async_ok_shape sz messages max_tokens h with hs | ⟨s, _, rfl⟩
  · exact .inl hs
  · exact .inr ⟨s, rfl, sc.firstLast_sublist messages⟩

set_option maxRecDepth 4000 in
/-- Witness for C3 at a concrete over-budget history: the truncated suffix,
the sliding-window output, the head-and-tail output and the
briefing-injected output each relate to the input as claimed. -/
theorem ordering_preserved_witness :
    ([msg4].Sublist histW3) ∧
    (histW3.Sublist histW3) ∧
    ([msg4, msg4].Sublist histW3) ∧
    ([msg4, briefingMessage "ok", msg4].Sublist histW3 ∨
      ∃ summary, [msg4, briefingMessage "ok", msg4] =
          scW.firstMessages histW3 ++ [briefingMessage summary] ++ scW.lastMessages histW3 ∧
        (scW.firstMessages histW3 ++ scW.lastMessages histW3).Sublist histW3) :=
  ⟨(ordering_preserved tcW swcW scW szConst histW3 40).1 [msg4] (by decide),
    (ordering_preserved tcW swcW scW szConst histW3 40).2.1 histW3 (by decide),
    (ordering_preserved tcW swcW scW szConst histW3 40).2.2.1 [msg4, msg4] (by decide),
    (ordering_preserved tcW swcW scW szConst histW3 40).2.2.2
      [msg4, briefingMessage "ok", msg4] (by decide)⟩

/-- C7: for `compress_async` on a non-empty, over-budget history with a
non-empty middle: if the middle's estimated tokens are below 100 the output
is exactly `first ++ last` (for every summarizer — no call is consulted);
if the summarizer call succeeds with a summary that, added to the preserved
tokens, fits the budget, the output is `first ++ [briefing] ++ last` with
exactly one synthetic message between head and tail. -/
theorem summarizing_async_paths (c : SummarizingCompressor)
    (sz : String → Except String String) (messages : List Message) (max_tokens : ℕ)
    (hne : messages ≠ [])
    (hover : max_tokens < estimate_messages_tokens messages)
    (hmid : c.middleStart messages < c.middleEnd messages) :
    (estimate_messages_tokens (c.middleMessages messages) < 100 →
      c.compress_async sz messages max_tokens =
        .ok (c.firstMessages messages ++ c.lastMessages messages)) ∧
    (∀ summary, 100 ≤ estimate_messages_tokens (c.middleMessages messages) →
      c.generate_summary sz (c.middleMessages messages) = .ok summary →
      c.preservedTokens messages + estimate_tokens summary ≤ max_tokens →
      c.compress_async sz messages max_tokens =
        .ok (c.firstMessages messages ++ [briefingMessage summary] ++
          c.lastMessages messages)) := by
  constructor
  · intro hsmall
    unfold SummarizingCompressor.compress_async
    rw [if_neg hne, if_neg (not_le.mpr hover), if_neg (not_le.mpr hmid), if_pos hsmall]
  · intro summary hbig hgen hfit
    unfold SummarizingCompressor.compress_async
    rw [if_neg hne, if_neg (not_le.mpr hover), if_neg (not_le.mpr hmid),
      if_neg (not_lt.mpr hbig)]
    split
    next e heq =>
      rw [hgen] at heq
      exact Except.noConfusion heq
    next s2 heq =>
      rw [hgen] at heq
      injection heq with heq'
      subst heq'
      rw [if_neg (not_lt.mpr hfit)]

set_option maxRecDepth 4000 in
/-- Witness for C7: the heavy-middle history against budget 50; the middle
estimates to 174 ≥ 100 and the summarizer answer "ok" fits. -/
theorem summarizing_async_paths_witness :
    (estimate_messages_tokens (scW.middleMessages histW3) < 100 →
      scW.compress_async szConst histW3 50 =
        .ok (scW.firstMessages histW3 ++ scW.lastMessages histW3)) ∧
    (∀ summary, 100 ≤ estimate_messages_tokens (scW.middleMessages histW3) →
      scW.generate_summary szConst (scW.middleMessages histW3) = .ok summary →
      scW.preservedTokens histW3 + estimate_tokens summary ≤ 50 →
      scW.compress_async szConst histW3 50 =
        .ok (scW.firstMessages histW3 ++ [briefingMessage summary] ++
          scW.lastMessages histW3)) :=
  summarizing_async_paths scW szConst histW3 50 (by decide) (by decide) (by decide)

/-- C8: every strategy maps the empty history to `Ok([])` for every budget;
the three synchronous `compress` entry points return `Ok` on every input;
`compress_async` returns an error only when the summarizer's prompt call
fails, and that error is `CompressionFailed` with message
`"Summarization failed: "` followed by the underlying error text. -/
theorem compression_error_surface (tc : TruncationCompressor)
    (swc : SlidingWindowCompressor) (sc : SummarizingCompressor)
    (sz : String → Except String String) (messages : List Message) (max_tokens : ℕ) :
    (tc.compress [] max_tokens = .ok [] ∧ swc.compress [] max_tokens = .ok [] ∧
      sc.compress [] max_tokens = .ok [] ∧ sc.compress_async sz [] max_tokens = .ok []) ∧
    ((∃ r, tc.compress messages max_tokens = .ok r) ∧
      (∃ r, swc.compress messages max_tokens = .ok r) ∧
      (∃ r, sc.compress messages max_tokens = .ok r)) ∧
    (∀ err, sc.compress_async sz messages max_tokens = .error err →
      ∃ p e, sz p = .error e ∧
        err = .compressionFailed ("Summarization failed: " ++ e)) := by
  refine ⟨⟨rfl, rfl, rfl, rfl⟩, ⟨?_, ?_, ?_⟩, ?_⟩
  · unfold TruncationCompressor.compress
    split_ifs <;> exact ⟨_, rfl⟩
  · unfold SlidingWindowCompressor.compress
    split_ifs <;> exact ⟨_, rfl⟩
  · unfold SummarizingCompressor.compress
    split_ifs <;> exact ⟨_, rfl⟩
  · intro err h
    unfold SummarizingCompressor.compress_async at h
    split_ifs at h
    split at h
    next e heq =>
      injection h with h'
      subst h'
      unfold SummarizingCompressor.generate_summary at heq
      split at heq
      next e2 hsz =>
        injection heq with heq'
        exact ⟨_, e2, hsz, heq'.symm⟩
      next r hsz => exact Except.noConfusion heq
    next summary heq =>
      split_ifs at h

set_option maxRecDepth 4000 in
/-- Witness for C8: the empty history succeeds everywhere; a concrete
over-budget history succeeds for the three synchronous strategies; and the
failing summarizer `szFail` surfaces exactly
`CompressionFailed("Summarization failed: boom")`. -/
theorem compression_error_surface_witness :
    (tcW.compress [] 40 = .ok [] ∧ swcW.compress [] 40 = .ok [] ∧
      scW.compress [] 40 = .ok [] ∧ scW.compress_async szFail [] 40 = .ok []) ∧
    ((∃ r, tcW.compress histW3 40 = .ok r) ∧
      (∃ r, swcW.compress histW3 40 = .ok r) ∧
      (∃ r, scW.compress histW3 40 = .ok r)) ∧
    (∃ p e, szFail p = .error e ∧
      CompressionError.compressionFailed "Summarization failed: boom" =
        .compressionFailed ("Summarization failed: " ++ e)) :=
  ⟨(compression_error_surface tcW swcW scW szFail histW3 40).1,
    (compression_error_surface tcW swcW scW szFail histW3 40).2.1,
    (compression_error_surface tcW swcW scW szFail histW3 40).2.2
      (.compressionFailed "Summarization failed: boom") (by decide)⟩

set_option maxRecDepth 4000 in
/-- C9: there are a history, a budget and a summarizer response for which
`compress_async` succeeds via summary injection — the fit check
`preserved_tokens + summary_tokens ≤ max_tokens` passes — yet the estimated
tokens of the returned history strictly exceed `max_tokens`, because the
injected briefing message adds the fixed wrapper text and the 4-token
per-message overhead that the fit check does not count. -/
theorem summary_injection_over_budget :
    SummarizingCompressor.generate_summary scW szConst (scW.middleMessages histW3) =
      .ok "ok" ∧
    scW.preservedTokens histW3 + estimate_tokens "ok" ≤ 40 ∧
    scW.compress_async szConst histW3 40 = .ok [msg4, briefingMessage "ok", msg4] ∧
    40 < estimate_messages_tokens [msg4, briefingMessage "ok", msg4] := by
  decide

/-- C10: no strategy duplicates an input message: every successful output
counts each message value at most as often as the input does — except that
`compress_async` may add one synthetic briefing message, so its counts rise
by at most one and stay bounded by the input's for every value that is not
a briefing message. -/
theorem no_message_duplication (tc : TruncationCompressor)
    (swc : SlidingWindowCompressor) (sc : SummarizingCompressor)
    (sz : String → Except String String) (messages : List Message) (max_tokens : ℕ) :
    (∀ r, tc.compress messages max_tokens = .ok r →
      ∀ m : Message, r.count m ≤ messages.count m) ∧
    (∀ r, swc.compress messages max_tokens = .ok r →
      ∀ m : Message, r.count m ≤ messages.count m) ∧
    (∀ r, sc.compress messages max_tokens = .ok r →
      ∀ m : Message, r.count m ≤ messages.count m) ∧
    (∀ r, sc.compress_async sz messages max_tokens = .ok r → ∀ m : Message,
      r.count m ≤ messages.count m + 1 ∧
      ((∀ summary, m ≠ briefingMessage summary) → r.count m ≤ messages.count m)) := by
  refine ⟨fun r h m => (truncation_output_sublist tc messages max_tokens h).count_le m,
    fun r h m => (sliding_window_output_sublist swc messages max_tokens h).count_le m,
    fun r h m => (summarizing_sync_output_sublist sc messages max_tokens h).count_le m,
    fun r h m => ?_⟩
  rcases sc.compress_async_ok_shape sz messages max_tokens h with hs | ⟨s, _, rfl⟩
  · exact ⟨le_trans (hs.count_le m) (Nat.le_succ _), fun _ => hs.count_le m⟩
  · have hfl : (sc.firstMessages messages ++ sc.lastMessages messages).count m ≤
        messages.count m := (sc.firstLast_sublist messages).count_le m
    have happ : (sc.firstMessages messages ++ sc.lastMessages messages).count m =
        (sc.firstMessages messages).count m + (sc.lastMessages messages).count m :=
      List.count_append m _ _
    have hsplit : (sc.firstMessages messages ++ [briefingMessage s] ++
        sc.lastMessages messages).count m =
        (sc.firstMessages messages).count m + [briefingMessage s].count m +
          (sc.lastMessages messages).count m := by
      rw [List.count_append, List.count_append]
    have hone : [briefingMessage s].count m ≤ 1 := by
      by_cases hms : m = briefingMessage s <;> simp [List.count_cons, hms]
    constructor
    · rw [hsplit]
      omega
    · intro hnotb
      have hzero : [briefingMessage s].count m = 0 := by
        rw [List.count_eq_zero]
        intro hmem
        exact hnotb s (List.mem_singleton.mp hmem)
      rw [hsplit, hzero]
      omega

set_option maxRecDepth 4000 in
/-- Witness for C10 at a concrete over-budget history: counts of the
minimal message and of the injected briefing in each output. -/
theorem no_message_duplication_witness :
    ([msg4].count msg4 ≤ histW3.count msg4) ∧
    (histW3.count msg4 ≤ histW3.count msg4) ∧
    ([msg4, msg4].count msg4 ≤ histW3.count msg4) ∧
    ([msg4, briefingMessage "ok", msg4].count (briefingMessage "ok") ≤
        histW3.count (briefingMessage "ok") + 1 ∧
      ((∀ summary, briefingMessage "ok" ≠ briefingMessage summary) →
        [msg4, briefingMessage "ok", msg4].count (briefingMessage "ok") ≤
          histW3.count (briefingMessage "ok"))) :=
  ⟨(no_message_duplication tcW swcW scW szConst histW3 40).1 [msg4] (by decide) msg4,
    (no_message_duplication tcW swcW scW szConst histW3 40).2.1 histW3 (by decide) msg4,
    (no_message_duplication tcW swcW scW szConst histW3 40).2.2.1 [msg4, msg4]
      (by decide) msg4,
    (no_message_duplication tcW swcW scW szConst histW3 40).2.2.2
      [msg4, briefingMessage "ok", msg4] (by decide) (briefingMessage "ok")⟩

/-- C4 (amended): `estimate_tokens("") = 0`, and for every non-empty text
whose UTF-8 BYTE length is at most 4096, `estimate_tokens` equals the exact
(rational-arithmetic) ceiling of the BYTE length divided by 3.4.  (The
source counts `text.len()` bytes, not characters, and computes in `f32`,
which first departs from exact rational arithmetic at byte lengths in the
millions.) -/
theorem estimate_tokens_formula (s : String) (h1 : s ≠ "") (h2 : utf8Len s ≤ 4096) :
    estimate_tokens "" = 0 ∧
    estimate_tokens s = (⌈(utf8Len s : ℚ) / (17 / 5)⌉).toNat := by
  refine ⟨by decide, ?_⟩
  have hpos := utf8Len_pos h1
  rw [ratCeilDiv]
  show estimateLen (utf8Len s) = _
  rw [estimateLen_exact h2, if_neg (by omega)]

/-- Witness for C4: the five-byte text "hello" estimates to the exact
ceiling of 5 / 3.4. -/
theorem estimate_tokens_formula_witness :
    estimate_tokens "" = 0 ∧
    estimate_tokens "hello" = (⌈(utf8Len "hello" : ℚ) / (17 / 5)⌉).toNat :=
  estimate_tokens_formula "hello" (by decide) (by decide)

/-- Counterexample for C4 as stated: the three-character, nine-byte text
"日本語" estimates from its BYTE length (`ceil(9 / 3.4) = 3`), not from its
character length (`ceil(3 / 3.4) = 1`); moreover the `f32` arithmetic
departs from the exact rational ceiling for large byte counts, e.g. at
3565162 bytes the code yields 1048577 while the exact ceiling is 1048578. -/
theorem estimate_tokens_spec_counterexample :
    estimate_tokens "日本語" = 3 ∧
    specCharCeil "日本語" = 1 ∧
    estimate_tokens "日本語" ≠ specCharCeil "日本語" ∧
    estimateLen 3565162 = 1048577 ∧
    (5 * 3565162 + 16) / 17 = 1048578 := by
  have hlen : ("日本語".length) = 3 := by decide
  have hspec : specCharCeil "日本語" = 1 := by
    unfold specCharCeil
    rw [hlen, ratCeilDiv]
  refine ⟨by decide, hspec, ?_, by decide, by decide⟩
  rw [hspec]
  decide
